import Mathlib

/-!
Verification of the abides order model, external-file oracle, and market-replay
agent against their natural-language specification.

The Python classes of `src/abides/order/types.py` are embedded as Lean
structures.  Direction (`is_buy_order`) is a class attribute of the concrete
leaf classes (`Bid`/`Ask`, `BuyMarket`/`SellMarket`), so the embedding carries a
class tag and derives `is_buy_order` from it, exactly as Python attribute lookup
does.  Logging (`print` of a warning) is modelled by a `warned` flag carried
next to the returned boolean; the functions are total, which models the
"never raises" part of the warning contract.
-/

namespace Abides

/-- Result of `isMatch` / `hasBetterPrice`: the returned boolean together with
whether the call printed a usage warning. -/
structure WarnResult where
  warned : Bool
  result : Bool
deriving DecidableEq, Repr

/-- Concrete leaf classes of `LimitOrder`: `Bid` and `Ask`. -/
inductive LimitCls where
  | bid
  | ask
deriving DecidableEq, Repr

/-- Class attribute `is_buy_order` of the limit-order leaf classes:
`Bid.is_buy_order = True`, `Ask.is_buy_order = False`. -/
def LimitCls.clsIsBuy : LimitCls → Bool
  | .bid => true
  | .ask => false

/-- Concrete leaf classes of `MarketOrder`: `BuyMarket` and `SellMarket`. -/
inductive MarketCls where
  | buyMarket
  | sellMarket
deriving DecidableEq, Repr

/-- Class attribute `is_buy_order` of the market-order leaf classes. -/
def MarketCls.clsIsBuy : MarketCls → Bool
  | .buyMarket => true
  | .sellMarket => false

/-- A `LimitOrder` instance: the fields of the base `Order` plus `limit_price`,
together with the concrete class (`Bid` or `Ask`) the instance belongs to.
Timestamps are modelled as rationals, the opaque `tag` as `Option Nat`. -/
structure LimitOrderR where
  cls : LimitCls
  agent_id : Int
  time_placed : Rat
  symbol : String
  quantity : Int
  limit_price : Int
  order_id : Option Int
  tag : Option Nat
  fill_price : Option Int
deriving DecidableEq, Repr

/-- The `is_buy_order` attribute of a limit-order instance is looked up on its
class, since neither `LimitOrder` nor `Bid`/`Ask` declare an instance slot. -/
def LimitOrderR.is_buy_order (o : LimitOrderR) : Bool := o.cls.clsIsBuy

/-- `LimitOrder.__init__`: stores the given fields.  Modelled from the spec:
the base `Order.__init__` is not under src; per the spec, `fill_price` is
"None/absent until executed". -/
def mkLimitOrder (cls : LimitCls) (agent_id : Int) (time_placed : Rat) (symbol : String)
    (quantity : Int) (limit_price : Int) (order_id : Option Int) (tag : Option Nat) :
    LimitOrderR :=
  { cls := cls, agent_id := agent_id, time_placed := time_placed, symbol := symbol,
    quantity := quantity, limit_price := limit_price, order_id := order_id, tag := tag,
    fill_price := none }

/-- `LimitOrder.isMatch(self, other)`: same-direction call warns and returns
`False`; a buy `self` matches iff `self.limit_price >= other.limit_price`, a
sell `self` matches iff `self.limit_price <= other.limit_price`. -/
def LimitOrderR.isMatch (a other : LimitOrderR) : WarnResult :=
  if a.is_buy_order = other.is_buy_order then
    { warned := true, result := false }
  else if a.is_buy_order then
    { warned := false, result := decide (other.limit_price ≤ a.limit_price) }
  else
    { warned := false, result := decide (a.limit_price ≤ other.limit_price) }

/-- `LimitOrder.hasEqPrice(self, other)`. -/
def LimitOrderR.hasEqPrice (a other : LimitOrderR) : Bool :=
  decide (a.limit_price = other.limit_price)

/-- `LimitOrder.hasBetterPrice(self, other)`: cross-direction call warns and
returns `False`; for buys it returns `self.limit_price > other.limit_price`,
for sells `self.limit_price < other.limit_price`. -/
def LimitOrderR.hasBetterPrice (a other : LimitOrderR) : WarnResult :=
  if a.is_buy_order ≠ other.is_buy_order then
    { warned := true, result := false }
  else if a.is_buy_order then
    { warned := false, result := decide (other.limit_price < a.limit_price) }
  else
    { warned := false, result := decide (a.limit_price < other.limit_price) }

/-- `LimitOrder.__copy__`: rebuilds via the constructor of the same class and
then overwrites `fill_price` with the original's. -/
def LimitOrderR.copyOrd (o : LimitOrderR) : LimitOrderR :=
  { mkLimitOrder o.cls o.agent_id o.time_placed o.symbol o.quantity o.limit_price
      o.order_id o.tag with
    fill_price := o.fill_price }

/-- `LimitOrder.__deepcopy__`: same as `__copy__` except the tag is
deep-copied; tags are modelled as immutable opaque values, for which a deep
copy is the value itself. -/
def LimitOrderR.deepcopyOrd (o : LimitOrderR) : LimitOrderR :=
  { mkLimitOrder o.cls o.agent_id o.time_placed o.symbol o.quantity o.limit_price
      o.order_id o.tag with
    fill_price := o.fill_price }

/-- A `MarketOrder` instance together with its concrete class. -/
structure MarketOrderR where
  cls : MarketCls
  agent_id : Int
  time_placed : Rat
  symbol : String
  quantity : Int
  order_id : Option Int
  tag : Option Nat
  fill_price : Option Int
deriving DecidableEq, Repr

/-- The `is_buy_order` attribute of a market-order instance, looked up on its
class. -/
def MarketOrderR.is_buy_order (o : MarketOrderR) : Bool := o.cls.clsIsBuy

/-- `MarketOrder` construction via the base `Order.__init__`.  Modelled from
the spec: the base `Order.__init__` is not under src; `fill_price` starts as
`None`. -/
def mkMarketOrder (cls : MarketCls) (agent_id : Int) (time_placed : Rat) (symbol : String)
    (quantity : Int) (order_id : Option Int) (tag : Option Nat) : MarketOrderR :=
  { cls := cls, agent_id := agent_id, time_placed := time_placed, symbol := symbol,
    quantity := quantity, order_id := order_id, tag := tag, fill_price := none }

/-- `MarketOrder.__copy__`. -/
def MarketOrderR.copyOrd (o : MarketOrderR) : MarketOrderR :=
  { mkMarketOrder o.cls o.agent_id o.time_placed o.symbol o.quantity o.order_id o.tag with
    fill_price := o.fill_price }

/-- `MarketOrder.__deepcopy__` (tag deep copy is the identity on the opaque
tag model). -/
def MarketOrderR.deepcopyOrd (o : MarketOrderR) : MarketOrderR :=
  { mkMarketOrder o.cls o.agent_id o.time_placed o.symbol o.quantity o.order_id o.tag with
    fill_price := o.fill_price }

/-- A `BasketOrder` instance: `Order` fields plus the `dollar` flag.  Its
direction attribute is kept abstract as a boolean resolved by the (unshown)
concrete class. -/
structure BasketOrderR where
  is_buy_order : Bool
  agent_id : Int
  time_placed : Rat
  symbol : String
  quantity : Int
  dollar : Bool
  order_id : Option Int
  tag : Option Nat
  fill_price : Option Int
deriving DecidableEq, Repr

/-- `BasketOrder.__init__`: note it passes no tag to the base constructor, so
a constructed basket order always has `tag = None`; `fill_price` starts as
`None` (base `Order.__init__` modelled from the spec as for the others). -/
def mkBasketOrder (is_buy : Bool) (agent_id : Int) (time_placed : Rat) (symbol : String)
    (quantity : Int) (dollar : Bool) (order_id : Option Int) : BasketOrderR :=
  { is_buy_order := is_buy, agent_id := agent_id, time_placed := time_placed,
    symbol := symbol, quantity := quantity, dollar := dollar, order_id := order_id,
    tag := none, fill_price := none }

/-- `BasketOrder.__copy__`. -/
def BasketOrderR.copyOrd (o : BasketOrderR) : BasketOrderR :=
  { mkBasketOrder o.is_buy_order o.agent_id o.time_placed o.symbol o.quantity o.dollar
      o.order_id with
    fill_price := o.fill_price }

/-- `BasketOrder.__deepcopy__` just calls `__copy__`. -/
def BasketOrderR.deepcopyOrd (o : BasketOrderR) : BasketOrderR := o.copyOrd

/-- Sum of the three order variants, for uniform copy and fill-state
reasoning. -/
inductive AnyOrder where
  | market (o : MarketOrderR)
  | limit (o : LimitOrderR)
  | basket (o : BasketOrderR)
deriving DecidableEq, Repr

/-- `copy.copy` dispatched over the variants. -/
def AnyOrder.copyOrd : AnyOrder → AnyOrder
  | .market o => .market o.copyOrd
  | .limit o => .limit o.copyOrd
  | .basket o => .basket o.copyOrd

/-- `copy.deepcopy` dispatched over the variants. -/
def AnyOrder.deepcopyOrd : AnyOrder → AnyOrder
  | .market o => .market o.deepcopyOrd
  | .limit o => .limit o.deepcopyOrd
  | .basket o => .basket o.deepcopyOrd

/-- The assignment `order.fill_price = p` on any variant. -/
def AnyOrder.setFill (p : Option Int) : AnyOrder → AnyOrder
  | .market o => .market { o with fill_price := p }
  | .limit o => .limit { o with fill_price := p }
  | .basket o => .basket { o with fill_price := p }

/-- `order_id` of any variant. -/
def AnyOrder.orderIdOf : AnyOrder → Option Int
  | .market o => o.order_id
  | .limit o => o.order_id
  | .basket o => o.order_id

/-- `quantity` of any variant. -/
def AnyOrder.quantityOf : AnyOrder → Int
  | .market o => o.quantity
  | .limit o => o.quantity
  | .basket o => o.quantity

/-- `tag` of any variant. -/
def AnyOrder.tagOf : AnyOrder → Option Nat
  | .market o => o.tag
  | .limit o => o.tag
  | .basket o => o.tag

/-- `fill_price` of any variant. -/
def AnyOrder.fillPriceOf : AnyOrder → Option Int
  | .market o => o.fill_price
  | .limit o => o.fill_price
  | .basket o => o.fill_price

/-- The price field of the variant: `limit_price` for limit orders, absent for
the price-less variants. -/
def AnyOrder.priceFieldOf : AnyOrder → Option Int
  | .limit o => some o.limit_price
  | _ => none

/-- Constructor-reachable basket orders always carry `tag = None`, because
`BasketOrder.__init__` passes no tag to the base constructor; this predicate
restricts to such orders (it is trivial for the other variants, whose
constructors accept an arbitrary tag). -/
def AnyOrder.basketTagNone : AnyOrder → Prop
  | .basket o => o.tag = none
  | _ => True

/-- A fragment of the Python object heap: addresses mapped to order objects.
`__copy__` allocates a fresh object via the class constructor rather than
aliasing `self`, which is what makes the copy's fill state independent. -/
def OrderHeap : Type := Nat → Option AnyOrder

/-- Allocate at a fresh address the `__copy__` of the object stored at `src`. -/
def heapCopyAlloc (h : OrderHeap) (src fresh : Nat) : OrderHeap :=
  fun a => if a = fresh then (h src).map AnyOrder.copyOrd else h a

/-- Perform `obj.fill_price = p` on the object stored at `addr`. -/
def heapSetFill (h : OrderHeap) (addr : Nat) (p : Option Int) : OrderHeap :=
  fun a => if a = addr then (h a).map (AnyOrder.setFill p) else h a

/-- `sys.maxsize` on a 64-bit CPython build. -/
def sysMaxsize : Int := 2 ^ 63 - 1

/-- Modelled from the spec: `abides.util.dollarize` is not under src; per the
spec it renders an int-cents price for printing. -/
def dollarize (cents : Int) : String :=
  "$" ++ toString (cents / 100) ++ "." ++ toString (cents % 100)

/-- The limit-price rendering chosen by `LimitOrder.__str__`: the dollarized
price when `limit_price < sys.maxsize`, the marker string MKT otherwise. -/
def limitInfoOf (limit_price : Int) : String :=
  if limit_price < sysMaxsize then dollarize limit_price else "MKT"

/-!
Embedding of `src/oracle/ExternalFileOracle.py`.  Timestamps are modelled as
rational numbers of seconds (so `(t2 - t1).total_seconds()` is plain
subtraction) and prices as rationals.  The per-symbol fundamental series is a
pair of parallel lists (the pandas index and values); the per-symbol entry of
`f_log` is a list of `(FundamentalTime, FundamentalValue)` pairs.  Positional
indexing of a pandas series supports Python negative indices, modelled by
`seriesGet`.
-/

/-- Python positional indexing `series[i]` with negative-index wraparound
(`series[-1]` is the last element); out-of-range reads, which would raise in
Python, default to 0 and are excluded by the theorems' hypotheses. -/
def seriesGet (l : List Rat) (i : Int) : Rat :=
  if 0 ≤ i then l.getD i.toNat 0 else l.getD (l.length - (-i).toNat) 0

/-- `bisect.bisect_left` on a sorted list: the length of the longest prefix of
elements strictly below `x`, which on sorted input is the leftmost insertion
point. -/
def bisectLeft (l : List Rat) (x : Rat) : Nat :=
  match l with
  | [] => 0
  | a :: rest => if a < x then bisectLeft rest x + 1 else 0

/-- The per-symbol state `ExternalFileOracle` keeps: the fundamental series
(index and values) and that symbol's `f_log` entry. -/
structure OracleState where
  times : List Rat
  vals : List Rat
  f_log : List (Rat × Rat)
deriving DecidableEq, Repr

/-- `ExternalFileOracle.getInterpolatedPrice`: linear interpolation between
`(time_low, price_low)` and `(time_high, price_high)`, with the slope forced to
0 when the two prices coincide. -/
def getInterpolatedPrice (current_time time_low time_high price_low price_high :
    Rat) : Rat :=
  let delta_y := price_high - price_low
  let delta_x := time_high - time_low
  let slope := if price_low ≠ price_high then delta_y / delta_x else 0
  let x_fwd := current_time - time_low
  price_low + x_fwd * slope

/-- `ExternalFileOracle.getPriceAtTime`: clamp to the first value before the
series opens and to the last value after it closes; otherwise interpolate
between the neighbouring samples and append the result to the symbol's
`f_log`.  Returns the price together with the updated oracle state. -/
def getPriceAtTime (st : OracleState) (query_time : Rat) : Rat × OracleState :=
  let series_open_time := seriesGet st.times 0
  let series_close_time := seriesGet st.times (-1)
  if query_time < series_open_time then (seriesGet st.vals 0, st)
  else if series_close_time < query_time then (seriesGet st.vals (-1), st)
  else
    let lower_idx : Int := (bisectLeft st.times query_time : Int) - 1
    let upper_idx : Int :=
      if lower_idx < (st.times.length : Int) - 1 then lower_idx + 1 else lower_idx
    let lower_val := seriesGet st.vals lower_idx
    let upper_val := seriesGet st.vals upper_idx
    let p := getInterpolatedPrice query_time (seriesGet st.times lower_idx)
      (seriesGet st.times upper_idx) lower_val upper_val
    (p, { st with f_log := st.f_log ++ [(query_time, p)] })

/-- Python `round` (round-half-to-even, as `int(round(x))` computes it). -/
def pyRound (q : Rat) : Int :=
  let f := q.floor
  let frac := q - (f : Rat)
  if frac < 1 / 2 then f
  else if 1 / 2 < frac then f + 1
  else if f % 2 = 0 then f else f + 1

/-- `ExternalFileOracle.observePrice`: the true price is read (and possibly
logged) via `getPriceAtTime`; with `sigma_n == 0` it is returned as is,
otherwise a normal draw from `random_state` is taken around it.  The sampler is
modelled as an opaque function of the mean and of `sigma_n` (the deterministic
`sqrt(sigma_n)` scale is folded into it); a missing `random_state` on the noisy
branch, which would raise in Python, yields `none`. -/
def observePrice (st : OracleState) (current_time : Rat) (sigma_n : Rat)
    (random_state : Option (Rat → Rat → Rat)) : Option Int × OracleState :=
  let res := getPriceAtTime st current_time
  let true_price := res.1
  let observed : Option Rat :=
    if sigma_n = 0 then some true_price
    else
      match random_state with
      | some rs => some (rs true_price sigma_n)
      | none => none
  (observed.map pyRound, res.2)

/-!
Embedding of `MarketReplayAgentUSD.placeOrder`
(`src/backtesting/agent/examples/MarketReplayAgentUSD.py`).  An order record is
one row of the historical order stream; the agent's `self.orders` map of its
own open orders and the `TradingAgent` helpers it calls are modelled from the
spec, since `TradingAgent` is not under src.
-/

/-- One historical order record, with exactly the columns `placeOrder` reads
(the `Type` column is named `rtype` here). -/
structure OrderRecord where
  order_id : Int
  rtype : String
  size : Int
  price : Int
  direction : String
deriving DecidableEq, Repr

/-- Modelled from the spec: `backtesting.order.base.LimitOrder` is not under
src; per the spec it is a limit order record carrying agent, time, symbol,
quantity, direction, price and id. -/
structure ReplayLimitOrder where
  agent_id : Int
  time_placed : Rat
  symbol : String
  quantity : Int
  is_buy_order : Bool
  limit_price : Int
  order_id : Int
deriving DecidableEq, Repr

/-- The actions `placeOrder` can issue through its `TradingAgent` base:
`placeLimitOrder`, `cancelOrder` and `modifyOrder` calls with their
arguments. -/
inductive ReplayAction where
  | placeLimit (symbol : String) (size : Int) (isBuy : Bool) (price : Int)
      (order_id : Int)
  | cancel (existing : ReplayLimitOrder)
  | modify (existing : ReplayLimitOrder) (replacement : ReplayLimitOrder)
deriving DecidableEq, Repr

/-- The slice of agent state `placeOrder` touches: the agent's id, its symbol,
and the `self.orders` map of the agent's own open orders keyed by order id. -/
structure ReplayAgentState where
  id : Int
  symbol : String
  orders : Int → Option ReplayLimitOrder

/-- Insertion into the agent's open-order map.  Modelled from the spec: the
`TradingAgent` helpers are not under src; per the spec an agent keeps its own
copy of each live order keyed by `order_id`, so placing or modifying records
the order under its id. -/
def ordersInsert (m : Int → Option ReplayLimitOrder) (k : Int)
    (o : ReplayLimitOrder) : Int → Option ReplayLimitOrder :=
  fun x => if x = k then some o else m x

/-- Removal from the agent's open-order map (see `ordersInsert`); cancelling
drops the agent's copy. -/
def ordersErase (m : Int → Option ReplayLimitOrder) (k : Int) :
    Int → Option ReplayLimitOrder :=
  fun x => if x = k then none else m x

/-- The one-record body of `MarketReplayAgentUSD.placeOrder`: with no existing
order under the record's id, place a limit order only when `Size > 0` and
`Type == 'R'`; with an existing order, cancel on `Size == 0`, modify on
`Size > 0`; in every other case do nothing. -/
def placeOrderSingle (st : ReplayAgentState) (currentTime : Rat)
    (r : OrderRecord) : List ReplayAction × ReplayAgentState :=
  match st.orders r.order_id with
  | none =>
    if 0 < r.size ∧ r.rtype = "R" then
      let o : ReplayLimitOrder :=
        ⟨st.id, currentTime, st.symbol, r.size, r.direction = "BUY", r.price,
          r.order_id⟩
      ([.placeLimit st.symbol r.size (r.direction = "BUY") r.price r.order_id],
        { st with orders := ordersInsert st.orders r.order_id o })
    else ([], st)
  | some existing =>
    if r.size = 0 then
      ([.cancel existing],
        { st with orders := ordersErase st.orders r.order_id })
    else if 0 < r.size then
      let replacement : ReplayLimitOrder :=
        ⟨st.id, currentTime, st.symbol, r.size, r.direction = "BUY", r.price,
          r.order_id⟩
      ([.modify existing replacement],
        { st with orders := ordersInsert st.orders r.order_id replacement })
    else ([], st)

/-- `MarketReplayAgentUSD.placeOrder`: a one-element list is handled by the
dispatch above; any other list is looped over, calling `placeOrder` again on
each record's one-element list (that recursive singleton call reduces to
`placeOrderSingle`, which is inlined here to make the recursion structural). -/
def placeOrder (st : ReplayAgentState) (currentTime : Rat)
    (order : List OrderRecord) : List ReplayAction × ReplayAgentState :=
  match order with
  | [r] => placeOrderSingle st currentTime r
  | rs =>
    rs.foldl
      (fun acc r =>
        let next := placeOrderSingle acc.2 currentTime r
        (acc.1 ++ next.1, next.2))
      ([], st)

end Abides

namespace Abides

/-- Claim C1: for every buy limit order A and sell limit order B, `A.isMatch(B)`
and `B.isMatch(A)` are both true when `A.limit_price >= B.limit_price`, both
false when `A.limit_price < B.limit_price`, and always agree. -/
theorem claim_C1 (A B : LimitOrderR) (hA : A.is_buy_order = true)
    (hB : B.is_buy_order = false) :
    (B.limit_price ≤ A.limit_price →
      (A.isMatch B).result = true ∧ (B.isMatch A).result = true) ∧
    (A.limit_price < B.limit_price →
      (A.isMatch B).result = false ∧ (B.isMatch A).result = false) ∧
    (A.isMatch B).result = (B.isMatch A).result := by
  have h1 : A.isMatch B =
      { warned := false, result := decide (B.limit_price ≤ A.limit_price) } := by
    simp [LimitOrderR.isMatch, hA, hB]
  have h2 : B.isMatch A =
      { warned := false, result := decide (B.limit_price ≤ A.limit_price) } := by
    simp [LimitOrderR.isMatch, hA, hB]
  rw [h1, h2]
  refine ⟨fun h => ?_, fun h => ?_, rfl⟩
  · simp [h]
  · have : ¬ B.limit_price ≤ A.limit_price := by omega
    simp [this]

/-- Claim C1 witness: instantiation at Bid(limit=100) vs Ask(limit=90). -/
theorem claim_C1_witness :
    ((mkLimitOrder .ask 2 0 "USD/RUB" 5 90 none none).limit_price ≤
        (mkLimitOrder .bid 1 0 "USD/RUB" 5 100 none none).limit_price →
      ((mkLimitOrder .bid 1 0 "USD/RUB" 5 100 none none).isMatch
          (mkLimitOrder .ask 2 0 "USD/RUB" 5 90 none none)).result = true ∧
      ((mkLimitOrder .ask 2 0 "USD/RUB" 5 90 none none).isMatch
          (mkLimitOrder .bid 1 0 "USD/RUB" 5 100 none none)).result = true) ∧
    ((mkLimitOrder .bid 1 0 "USD/RUB" 5 100 none none).limit_price <
        (mkLimitOrder .ask 2 0 "USD/RUB" 5 90 none none).limit_price →
      ((mkLimitOrder .bid 1 0 "USD/RUB" 5 100 none none).isMatch
          (mkLimitOrder .ask 2 0 "USD/RUB" 5 90 none none)).result = false ∧
      ((mkLimitOrder .ask 2 0 "USD/RUB" 5 90 none none).isMatch
          (mkLimitOrder .bid 1 0 "USD/RUB" 5 100 none none)).result = false) ∧
    ((mkLimitOrder .bid 1 0 "USD/RUB" 5 100 none none).isMatch
        (mkLimitOrder .ask 2 0 "USD/RUB" 5 90 none none)).result =
      ((mkLimitOrder .ask 2 0 "USD/RUB" 5 90 none none).isMatch
        (mkLimitOrder .bid 1 0 "USD/RUB" 5 100 none none)).result :=
  claim_C1 (mkLimitOrder .bid 1 0 "USD/RUB" 5 100 none none)
    (mkLimitOrder .ask 2 0 "USD/RUB" 5 90 none none) (by decide) (by decide)

/-- Claim C2 counterexample: with Bid(limit=100) and Bid(limit=10), the code
(and its own doctests) give `hi.hasBetterPrice(lo) = True` and
`lo.hasBetterPrice(hi) = False`, the opposite of the claim. -/
theorem claim_C2_counterexample :
    ¬ ((((mkLimitOrder .bid 1 0 "USD/RUB" 10 100 none none).hasBetterPrice
          (mkLimitOrder .bid 1 0 "USD/RUB" 10 10 none none)).result = false) ∧
       (((mkLimitOrder .bid 1 0 "USD/RUB" 10 10 none none).hasBetterPrice
          (mkLimitOrder .bid 1 0 "USD/RUB" 10 100 none none)).result = true)) := by
  decide

/-- Claim C2 (amended): for two bids with distinct limit prices, the
higher-priced bid's `hasBetterPrice` about the lower one returns True, and the
lower-priced bid's `hasBetterPrice` about the higher one returns False. -/
theorem claim_C2_amended (hi lo : LimitOrderR) (hhi : hi.cls = .bid)
    (hlo : lo.cls = .bid) (hp : lo.limit_price < hi.limit_price) :
    (hi.hasBetterPrice lo).result = true ∧ (lo.hasBetterPrice hi).result = false := by
  constructor <;>
    simp [LimitOrderR.hasBetterPrice, LimitOrderR.is_buy_order, hhi, hlo,
      LimitCls.clsIsBuy] <;>
    omega

/-- Claim C2 (amended) witness: instantiation at Bid(limit=100), Bid(limit=10). -/
theorem claim_C2_witness :
    ((mkLimitOrder .bid 1 0 "USD/RUB" 10 100 none none).hasBetterPrice
      (mkLimitOrder .bid 1 0 "USD/RUB" 10 10 none none)).result = true ∧
    ((mkLimitOrder .bid 1 0 "USD/RUB" 10 10 none none).hasBetterPrice
      (mkLimitOrder .bid 1 0 "USD/RUB" 10 100 none none)).result = false :=
  claim_C2_amended (mkLimitOrder .bid 1 0 "USD/RUB" 10 100 none none)
    (mkLimitOrder .bid 1 0 "USD/RUB" 10 10 none none) rfl rfl (by decide)

/-- Claim C3: `hasBetterPrice` is irreflexive; two same-direction limit orders
with equal limit price are never "better" than each other; and a lower-priced
ask's `hasBetterPrice` about a higher-priced ask returns True. -/
theorem claim_C3 :
    (∀ x : LimitOrderR, (x.hasBetterPrice x).result = false) ∧
    (∀ x y : LimitOrderR, x.is_buy_order = y.is_buy_order →
      x.limit_price = y.limit_price →
      (x.hasBetterPrice y).result = false ∧ (y.hasBetterPrice x).result = false) ∧
    (∀ a b : LimitOrderR, a.cls = .ask → b.cls = .ask →
      a.limit_price < b.limit_price → (a.hasBetterPrice b).result = true) := by
  refine ⟨fun x => ?_, fun x y hd hp => ?_, fun a b ha hb hp => ?_⟩
  · simp [LimitOrderR.hasBetterPrice]
  · constructor <;> by_cases hb : y.is_buy_order <;>
      simp [LimitOrderR.hasBetterPrice, hd, hb, hp]
  · simp [LimitOrderR.hasBetterPrice, LimitOrderR.is_buy_order, ha, hb,
      LimitCls.clsIsBuy, hp]

/-- Claim C3 witness: irreflexivity at Bid(limit=5) and the ask example
Ask(limit=10) vs Ask(limit=100). -/
theorem claim_C3_witness :
    ((mkLimitOrder .bid 1 0 "USD/RUB" 1 5 none none).hasBetterPrice
      (mkLimitOrder .bid 1 0 "USD/RUB" 1 5 none none)).result = false ∧
    ((mkLimitOrder .ask 1 0 "USD/RUB" 10 10 none none).hasBetterPrice
      (mkLimitOrder .ask 2 0 "USD/RUB" 10 100 none none)).result = true :=
  ⟨claim_C3.1 (mkLimitOrder .bid 1 0 "USD/RUB" 1 5 none none),
   claim_C3.2.2 (mkLimitOrder .ask 1 0 "USD/RUB" 10 10 none none)
     (mkLimitOrder .ask 2 0 "USD/RUB" 10 100 none none) rfl rfl (by decide)⟩

/-- Claim C4: `isMatch` on same-direction orders warns and returns False, and
`hasBetterPrice` on opposite-direction orders warns and returns False; both
calls are total (never raise) and pure (the input orders are unchanged, which
the value-level embedding makes structural). -/
theorem claim_C4 (a b : LimitOrderR) :
    (a.is_buy_order = b.is_buy_order →
      a.isMatch b = { warned := true, result := false }) ∧
    (a.is_buy_order ≠ b.is_buy_order →
      a.hasBetterPrice b = { warned := true, result := false }) := by
  constructor
  · intro h
    simp [LimitOrderR.isMatch, h]
  · intro h
    simp [LimitOrderR.hasBetterPrice, h]

/-- Claim C4 witness: same-direction `isMatch` at two bids, cross-direction
`hasBetterPrice` at a bid and an ask. -/
theorem claim_C4_witness :
    ((mkLimitOrder .bid 1 0 "USD/RUB" 1 5 none none).isMatch
      (mkLimitOrder .bid 2 0 "USD/RUB" 1 7 none none) =
        { warned := true, result := false }) ∧
    ((mkLimitOrder .bid 1 0 "USD/RUB" 1 5 none none).hasBetterPrice
      (mkLimitOrder .ask 2 0 "USD/RUB" 1 7 none none) =
        { warned := true, result := false }) :=
  ⟨(claim_C4 (mkLimitOrder .bid 1 0 "USD/RUB" 1 5 none none)
      (mkLimitOrder .bid 2 0 "USD/RUB" 1 7 none none)).1 (by decide),
   (claim_C4 (mkLimitOrder .bid 1 0 "USD/RUB" 1 5 none none)
      (mkLimitOrder .ask 2 0 "USD/RUB" 1 7 none none)).2 (by decide)⟩

/-- Claim C5: for every order variant, `__copy__` and `__deepcopy__` preserve
`order_id`, `quantity`, the price field, `tag` and the current `fill_price`
(for basket orders the tag is restricted to its constructor-reachable value
`None`); and, on the heap model, assigning a new `fill_price` to the freshly
allocated copy leaves the original object untouched. -/
theorem claim_C5 :
    (∀ o : AnyOrder, o.basketTagNone →
      (o.copyOrd.orderIdOf = o.orderIdOf ∧ o.copyOrd.quantityOf = o.quantityOf ∧
        o.copyOrd.priceFieldOf = o.priceFieldOf ∧ o.copyOrd.tagOf = o.tagOf ∧
        o.copyOrd.fillPriceOf = o.fillPriceOf) ∧
      (o.deepcopyOrd.orderIdOf = o.orderIdOf ∧
        o.deepcopyOrd.quantityOf = o.quantityOf ∧
        o.deepcopyOrd.priceFieldOf = o.priceFieldOf ∧
        o.deepcopyOrd.tagOf = o.tagOf ∧
        o.deepcopyOrd.fillPriceOf = o.fillPriceOf)) ∧
    (∀ (h : OrderHeap) (src fresh : Nat) (p : Option Int), fresh ≠ src →
      heapSetFill (heapCopyAlloc h src fresh) fresh p src = h src) := by
  constructor
  · rintro (o | o | o) htag <;>
      simp_all [AnyOrder.copyOrd, AnyOrder.deepcopyOrd, AnyOrder.orderIdOf,
        AnyOrder.quantityOf, AnyOrder.priceFieldOf, AnyOrder.tagOf,
        AnyOrder.fillPriceOf, AnyOrder.basketTagNone, MarketOrderR.copyOrd,
        MarketOrderR.deepcopyOrd, LimitOrderR.copyOrd, LimitOrderR.deepcopyOrd,
        BasketOrderR.copyOrd, BasketOrderR.deepcopyOrd, mkMarketOrder,
        mkLimitOrder, mkBasketOrder]
  · intro h src fresh p hne
    simp [heapSetFill, heapCopyAlloc, Ne.symm hne]

/-- Claim C5 witness: a concrete limit order on a one-object heap; copying it
to address 1 and filling the copy leaves address 0 as it was. -/
theorem claim_C5_witness :
    ((AnyOrder.limit (mkLimitOrder .bid 1 0 "USD/RUB" 5 100 (some 42)
        (some 7))).copyOrd.orderIdOf =
      (AnyOrder.limit (mkLimitOrder .bid 1 0 "USD/RUB" 5 100 (some 42)
        (some 7))).orderIdOf) ∧
    (heapSetFill
        (heapCopyAlloc
          (fun a => if a = 0 then
            some (AnyOrder.limit (mkLimitOrder .bid 1 0 "USD/RUB" 5 100 (some 42)
              (some 7)))
            else none)
          0 1)
        1 (some 99) 0 =
      (fun a => if a = 0 then
        some (AnyOrder.limit (mkLimitOrder .bid 1 0 "USD/RUB" 5 100 (some 42)
          (some 7)))
        else none) 0) :=
  ⟨((claim_C5.1 (AnyOrder.limit (mkLimitOrder .bid 1 0 "USD/RUB" 5 100 (some 42)
      (some 7))) True.intro).1).1,
   claim_C5.2
     (fun a => if a = 0 then
       some (AnyOrder.limit (mkLimitOrder .bid 1 0 "USD/RUB" 5 100 (some 42)
         (some 7)))
       else none)
     0 1 (some 99) (by decide)⟩

/-- Claim C6: at or above the `sys.maxsize` sentinel the string rendering is
MKT (below, it is the dollarized price), while for every sentinel-priced limit
order — bid or ask, appearing as `self` or as `other` — `isMatch` against any
opposite-direction order and `hasBetterPrice` against any same-direction order
produce exactly the ordinary unwarned price comparison of the respective
direction: there is no sentinel branch in the matching logic. -/
theorem claim_C6 (p : Int) (hp : sysMaxsize ≤ p) :
    limitInfoOf p = "MKT" ∧
    (∀ q : Int, q < sysMaxsize → limitInfoOf q = dollarize q) ∧
    (∀ o x : LimitOrderR, o.limit_price = p →
      (o.is_buy_order ≠ x.is_buy_order →
        (o.isMatch x =
          { warned := false,
            result := if o.is_buy_order then decide (x.limit_price ≤ o.limit_price)
              else decide (o.limit_price ≤ x.limit_price) }) ∧
        (x.isMatch o =
          { warned := false,
            result := if x.is_buy_order then decide (o.limit_price ≤ x.limit_price)
              else decide (x.limit_price ≤ o.limit_price) })) ∧
      (o.is_buy_order = x.is_buy_order →
        (o.hasBetterPrice x =
          { warned := false,
            result := if o.is_buy_order then decide (x.limit_price < o.limit_price)
              else decide (o.limit_price < x.limit_price) }) ∧
        (x.hasBetterPrice o =
          { warned := false,
            result := if x.is_buy_order then decide (o.limit_price < x.limit_price)
              else decide (x.limit_price < o.limit_price) }))) := by
  refine ⟨?_, fun q hq => ?_, fun o x hop => ⟨fun hd => ?_, fun hd => ?_⟩⟩
  · have hnp : ¬ p < sysMaxsize := by omega
    simp [limitInfoOf, hnp]
  · simp [limitInfoOf, hq]
  · have h2 : ¬ x.is_buy_order = o.is_buy_order := fun h => hd h.symm
    constructor <;> by_cases hob : o.is_buy_order = true <;>
      by_cases hxb : x.is_buy_order = true <;>
      simp_all [LimitOrderR.isMatch]
  · constructor <;> by_cases hob : o.is_buy_order = true <;>
      simp_all [LimitOrderR.hasBetterPrice]

/-- Claim C6 witness: an ask at exactly `sys.maxsize` matched against
Bid(limit=100) and price-compared against Ask(limit=50). -/
theorem claim_C6_witness :
    limitInfoOf sysMaxsize = "MKT" ∧
    (mkLimitOrder .ask 1 0 "USD/RUB" 5 sysMaxsize none none).isMatch
        (mkLimitOrder .bid 2 0 "USD/RUB" 5 100 none none) =
      { warned := false,
        result := decide
          ((mkLimitOrder .ask 1 0 "USD/RUB" 5 sysMaxsize none none).limit_price ≤
            (mkLimitOrder .bid 2 0 "USD/RUB" 5 100 none none).limit_price) } ∧
    (mkLimitOrder .ask 1 0 "USD/RUB" 5 sysMaxsize none none).hasBetterPrice
        (mkLimitOrder .ask 2 0 "USD/RUB" 5 50 none none) =
      { warned := false,
        result := decide
          ((mkLimitOrder .ask 1 0 "USD/RUB" 5 sysMaxsize none none).limit_price <
            (mkLimitOrder .ask 2 0 "USD/RUB" 5 50 none none).limit_price) } :=
  ⟨(claim_C6 sysMaxsize (le_refl sysMaxsize)).1,
   (((claim_C6 sysMaxsize (le_refl sysMaxsize)).2.2
      (mkLimitOrder .ask 1 0 "USD/RUB" 5 sysMaxsize none none)
      (mkLimitOrder .bid 2 0 "USD/RUB" 5 100 none none) rfl).1 (by decide)).1,
   (((claim_C6 sysMaxsize (le_refl sysMaxsize)).2.2
      (mkLimitOrder .ask 1 0 "USD/RUB" 5 sysMaxsize none none)
      (mkLimitOrder .ask 2 0 "USD/RUB" 5 50 none none) rfl).2 (by decide)).1⟩

/-- Claim C7: `is_buy_order` is the fixed class constant of each concrete
variant — True for `BuyMarket` and `Bid`, False for `SellMarket` and `Ask` —
every constructor yields it, and `__copy__`/`__deepcopy__` preserve the class
and hence the constant. -/
theorem claim_C7 :
    (LimitCls.clsIsBuy .bid = true ∧ LimitCls.clsIsBuy .ask = false ∧
      MarketCls.clsIsBuy .buyMarket = true ∧
      MarketCls.clsIsBuy .sellMarket = false) ∧
    (∀ (cls : LimitCls) (agent_id : Int) (time_placed : Rat) (symbol : String)
        (quantity limit_price : Int) (order_id : Option Int) (tag : Option Nat),
      (mkLimitOrder cls agent_id time_placed symbol quantity limit_price order_id
        tag).is_buy_order = cls.clsIsBuy) ∧
    (∀ o : LimitOrderR, o.copyOrd.cls = o.cls ∧ o.deepcopyOrd.cls = o.cls ∧
      o.copyOrd.is_buy_order = o.is_buy_order ∧
      o.deepcopyOrd.is_buy_order = o.is_buy_order) ∧
    (∀ (cls : MarketCls) (agent_id : Int) (time_placed : Rat) (symbol : String)
        (quantity : Int) (order_id : Option Int) (tag : Option Nat),
      (mkMarketOrder cls agent_id time_placed symbol quantity order_id
        tag).is_buy_order = cls.clsIsBuy) ∧
    (∀ o : MarketOrderR, o.copyOrd.cls = o.cls ∧ o.deepcopyOrd.cls = o.cls ∧
      o.copyOrd.is_buy_order = o.is_buy_order ∧
      o.deepcopyOrd.is_buy_order = o.is_buy_order) :=
  ⟨⟨rfl, rfl, rfl, rfl⟩,
   fun _ _ _ _ _ _ _ _ => rfl,
   fun _ => ⟨rfl, rfl, rfl, rfl⟩,
   fun _ _ _ _ _ _ _ => rfl,
   fun _ => ⟨rfl, rfl, rfl, rfl⟩⟩

/-- Claim C8: with `sigma_n == 0`, `observePrice` is independent of the
`random_state` argument (including a missing one) and returns exactly
`int(round(getPriceAtTime(symbol, current_time)))`. -/
theorem claim_C8 (st : OracleState) (t : Rat)
    (rs1 rs2 : Option (Rat → Rat → Rat)) :
    observePrice st t 0 rs1 = observePrice st t 0 rs2 ∧
    (observePrice st t 0 rs1).1 = some (pyRound (getPriceAtTime st t).1) := by
  simp [observePrice]

/-- Claim C9: a query strictly before the series' first timestamp returns the
first value and a query strictly after the last timestamp returns the last
value, in both cases without interpolating and without touching the symbol's
fundamental log (the whole oracle state is returned unchanged). -/
theorem claim_C9 :
    (∀ (st : OracleState) (t : Rat), st.times ≠ [] →
      t < seriesGet st.times 0 →
      getPriceAtTime st t = (seriesGet st.vals 0, st)) ∧
    (∀ (st : OracleState) (t : Rat), st.times ≠ [] →
      seriesGet st.times 0 ≤ seriesGet st.times (-1) →
      seriesGet st.times (-1) < t →
      getPriceAtTime st t = (seriesGet st.vals (-1), st)) := by
  constructor
  · intro st t hne hlt
    simp [getPriceAtTime, hlt]
  · intro st t hne hoc hgt
    have h1 : ¬ t < seriesGet st.times 0 :=
      not_lt.mpr (le_of_lt (lt_of_le_of_lt hoc hgt))
    simp [getPriceAtTime, h1, hgt]

/-- Claim C9 witness: a two-sample series with timestamps 10 and 20; queries at
times 5 and 25 clamp to the first and last value with the state unchanged. -/
theorem claim_C9_witness :
    getPriceAtTime ⟨[10, 20], [100, 200], []⟩ 5 =
      (seriesGet [100, 200] 0, ⟨[10, 20], [100, 200], []⟩) ∧
    getPriceAtTime ⟨[10, 20], [100, 200], []⟩ 25 =
      (seriesGet [100, 200] (-1), ⟨[10, 20], [100, 200], []⟩) :=
  ⟨claim_C9.1 ⟨[10, 20], [100, 200], []⟩ 5 (by decide) (by decide),
   claim_C9.2 ⟨[10, 20], [100, 200], []⟩ 25 (by decide) (by decide) (by decide)⟩

/-- Claim C10: on a list of two or more records, `placeOrder` produces exactly
the action sequence (and state) of the folded singleton calls, in order; and a
single record with no existing order under its id and `Type != 'R'` (or a
non-positive `Size`) performs no place, modify or cancel action and leaves the
agent state unchanged. -/
theorem claim_C10 :
    (∀ (st : ReplayAgentState) (t : Rat) (rs : List OrderRecord),
      2 ≤ rs.length →
      placeOrder st t rs =
        rs.foldl
          (fun acc r =>
            let next := placeOrder acc.2 t [r]
            (acc.1 ++ next.1, next.2))
          ([], st)) ∧
    (∀ (st : ReplayAgentState) (t : Rat) (r : OrderRecord),
      st.orders r.order_id = none → (r.rtype ≠ "R" ∨ ¬ 0 < r.size) →
      placeOrder st t [r] = ([], st)) := by
  constructor
  · intro st t rs hlen
    match rs with
    | [] => simp at hlen
    | [r] => simp at hlen
    | a :: b :: l => rfl
  · intro st t r hnone hbad
    have hng : ¬ (0 < r.size ∧ r.rtype = "R") := by tauto
    simp [placeOrder, placeOrderSingle, hnone, hng]

/-- Claim C10 witness: a two-record list folds into the two singleton calls,
and a fresh-id record of type A performs no action. -/
theorem claim_C10_witness :
    (placeOrder ⟨7, "USD/RUB", fun _ => none⟩ 0
        [⟨5, "A", 3, 100, "BUY"⟩, ⟨6, "R", 2, 101, "SELL"⟩] =
      List.foldl
        (fun acc r =>
          let next := placeOrder acc.2 0 [r]
          (acc.1 ++ next.1, next.2))
        ([], ⟨7, "USD/RUB", fun _ => none⟩)
        [⟨5, "A", 3, 100, "BUY"⟩, ⟨6, "R", 2, 101, "SELL"⟩]) ∧
    placeOrder ⟨7, "USD/RUB", fun _ => none⟩ 0 [⟨5, "A", 3, 100, "BUY"⟩] =
      ([], ⟨7, "USD/RUB", fun _ => none⟩) :=
  ⟨claim_C10.1 ⟨7, "USD/RUB", fun _ => none⟩ 0
     [⟨5, "A", 3, 100, "BUY"⟩, ⟨6, "R", 2, 101, "SELL"⟩] (by decide),
   claim_C10.2 ⟨7, "USD/RUB", fun _ => none⟩ 0 ⟨5, "A", 3, 100, "BUY"⟩ rfl
     (Or.inl (by decide))⟩

end Abides
